import Mathlib

/-!
A shallow embedding of the query compiler in `src/db.rs` of the `compass`
repository: the atom combinator (`parse_query_list`), the per-field-kind
predicate generators (`generate_one_field`), the field resolver and
where-clause assembler (`generate_where`), the limit/offset/parameter
assembly of `json_search`, and the result post-processor, together with
theorems settling the frozen claims about them.

Rust machine integers are modelled as `Int`/`Nat` with explicit bounds
where parsing may overflow; fallible Rust code returns `Except`/`Option`.
-/

namespace Compass

/-- Error type of the compiler.  `InvalidNumberError` / `InvalidBoolError`
mirror `CompassError::InvalidNumberError` / `CompassError::InvalidBoolError`
(the carried std parse-error payloads are dropped; store errors are not
reachable in the pure fragment modelled here). -/
inductive CompassError where
  | InvalidNumberError
  | InvalidBoolError
deriving DecidableEq, Repr

/-- Modelled from the spec: the converter direction enums (`ConvertFrom` /
`ConvertTo`) are declared outside `src/`; the spec gives the closed set
`{DateTimeString, Timestamp, TimestampMillis}`. -/
inductive ConvertFrom where
  | DateTimeString
  | Timestamp
  | TimestampMillis
deriving DecidableEq, Repr

/-- Modelled from the spec: see `ConvertFrom`. -/
inductive ConvertTo where
  | DateTimeString
  | Timestamp
  | TimestampMillis
deriving DecidableEq, Repr

/-- Modelled from the spec: `Converter` is a `(from, to)` pair; `db.rs`
matches on `(conv.from, conv.to)`.  Field names `cfrom`/`cto` because
`from` is a Lean keyword. -/
structure ConverterSchema where
  cfrom : ConvertFrom
  cto : ConvertTo
deriving DecidableEq, Repr

/-- The closed tagged union of field kinds (`FieldQuery` in the source).
`Range` carries `min`/`max` alias keys and a name → integer alias table
(a `HashMap<String, i64>` in the source, modelled as an association list);
`Fulltext` carries the language, the text-search query function chosen by
the matching syntax (`tsfn`, formatted into the SQL via `Display` in the
source) and an optional target field override; `Not` is recursive. -/
inductive FieldQuery where
  | Range (min max : String) (aliases : List (String × Int))
  | Min
  | Max
  | Bool
  | AmbiguousTag
  | NumericTag (aliases : List (String × Int))
  | StringTag
  | Nested
  | Fulltext (lang tsfn : String) (target : Option String)
  | Not (inner : FieldQuery)
deriving DecidableEq, Repr

/-- Modelled from the spec: a `FieldDefinition` is a query kind plus an
optional converter (`field.query` / `field.converter` in `db.rs`). -/
structure FieldDefinition where
  query : FieldQuery
  converter : Option ConverterSchema
deriving DecidableEq, Repr

/-- Modelled from the spec: a schema is a table identifier, a field-name →
definition mapping (association list with unique names) and a default sort
key (`schema.table`, `schema.fields`, `schema.default_order_by`). -/
structure Schema where
  table : String
  fields : List (String × FieldDefinition)
  default_order_by : String
deriving DecidableEq, Repr

/-- Rust `i64::from_str` digit run: at least one ASCII digit, nothing else. -/
def parseDigits : List Char → Option Nat
  | [] => none
  | cs => cs.foldlM (fun acc c => if c.isDigit then some (acc * 10 + (c.toNat - 48)) else none) 0

/-- Rust `str::parse::<i64>()`: optional sign, a nonempty digit run, and the
value must fit in `i64` (overflow is a parse error). -/
def parseI64 (s : String) : Option Int :=
  match s.data with
  | '+' :: rest => (parseDigits rest).bind fun n =>
      if n ≤ 9223372036854775807 then some (n : Int) else none
  | '-' :: rest => (parseDigits rest).bind fun n =>
      if n ≤ 9223372036854775808 then some (-(n : Int)) else none
  | cs => (parseDigits cs).bind fun n =>
      if n ≤ 9223372036854775807 then some (n : Int) else none

/-- Rust `str::parse::<bool>()`: exactly `"true"` or `"false"`. -/
def parseBool (s : String) : Option Bool :=
  if s = "true" then some true else if s = "false" then some false else none

/-- ASCII uppercasing of one character (`Char.toUpper`). -/
def ascii_upper (c : Char) : Char :=
  if c.toNat ≥ 97 ∧ c.toNat ≤ 122 then Char.ofNat (c.toNat - 32) else c

/-- Rust `str::to_uppercase()` on the ASCII fragment the compiler feeds it
(alias names and the `sortorder` value, compared against ASCII tables). -/
def to_uppercase (s : String) : String :=
  String.mk (s.data.map ascii_upper)

/-- Rust `str::strip_suffix(c)`. -/
def strip_suffix_char (s : String) (c : Char) : Option String :=
  if s.data.getLast? = some c then some (String.mk s.data.dropLast) else none

/-- The expression `curr_filter.strip_suffix('_').unwrap_or(&curr_filter)` from
`parse_query_list`. -/
def strip_us (s : String) : String :=
  match strip_suffix_char s '_' with
  | some t => t
  | none => s

/-- Rust `str::split_inclusive('_')` on the remaining characters, with `acc`
the characters of the chunk read so far: each chunk ends right after a `'_'`,
and a final chunk without `'_'` is kept if nonempty. -/
def split_inclusive_us : List Char → List Char → List String
  | [], acc => if acc = [] then [] else [String.mk acc]
  | c :: rest, acc =>
      if c = '_' then String.mk (acc ++ [c]) :: split_inclusive_us rest []
      else split_inclusive_us rest (acc ++ [c])

/-- Rust `Vec<String>::join(sep)`. -/
def join_sep (sep : String) : List String → String
  | [] => ""
  | [s] => s
  | s :: rest => s ++ sep ++ join_sep sep rest

/-- The loop of `parse_query_list`: `curr` is `curr_filter`, `filters` the
accumulated fragment/operator list.  On an exact `"and_"`/`"or_"` chunk the
pending atom (with its trailing `'_'` stripped) is translated and pushed
together with the operator; other chunks extend the pending atom; a final
nonempty pending atom is translated without a trailing operator. -/
def pql_go (f : String → Except CompassError String) :
    List String → String → List String → Except CompassError (List String)
  | [], curr, filters =>
      if curr = "" then .ok filters
      else do
        let fr ← f curr
        .ok (filters ++ [fr])
  | val :: rest, curr, filters =>
      if val = "and_" then do
        let fr ← f (strip_us curr)
        pql_go f rest "" (filters ++ [fr, "&&"])
      else if val = "or_" then do
        let fr ← f (strip_us curr)
        pql_go f rest "" (filters ++ [fr, "||"])
      else pql_go f rest (curr ++ val) filters

/-- Function `parse_query_list` from `db.rs`: tokenize the raw value with
`split_inclusive('_')`, fold the chunks through the loop, and parenthesize
the space-joined result. -/
def parse_query_list (f : String → Except CompassError String) (q : String) :
    Except CompassError String := do
  let filters ← pql_go f (split_inclusive_us q.data []) "" []
  .ok ("(" ++ join_sep " " filters ++ ")")

/-- The `Range` atom closure: existence keywords, then case-insensitive
alias lookup, then integer parse; all equalities are numeric. -/
def range_atom (name : String) (aliases : List (String × Int)) (x : String) :
    Except CompassError String :=
  if x = "exists" then .ok ("(exists($." ++ name ++ "))")
  else if x = "notexists" then .ok ("(!exists($." ++ name ++ "))")
  else
    match List.lookup (to_uppercase x) aliases with
    | some n => .ok ("($." ++ name ++ " == " ++ toString n ++ ")")
    | none =>
        match parseI64 x with
        | some n => .ok ("($." ++ name ++ " == " ++ toString n ++ ")")
        | none => .error .InvalidNumberError

/-- The `Min` atom closure: integer parse, strict `>`. -/
def min_atom (name : String) (x : String) : Except CompassError String :=
  match parseI64 x with
  | some n => .ok ("($." ++ name ++ " > " ++ toString n ++ ")")
  | none => .error .InvalidNumberError

/-- The `Max` atom closure: integer parse, strict `<`. -/
def max_atom (name : String) (x : String) : Except CompassError String :=
  match parseI64 x with
  | some n => .ok ("($." ++ name ++ " < " ++ toString n ++ ")")
  | none => .error .InvalidNumberError

/-- The `Bool` atom closure: existence keywords, else boolean parse. -/
def bool_atom (name : String) (x : String) : Except CompassError String :=
  if x = "exists" then .ok ("(exists($." ++ name ++ "))")
  else if x = "notexists" then .ok ("(!exists($." ++ name ++ "))")
  else
    match parseBool x with
    | some b => .ok ("($." ++ name ++ " == " ++ toString b ++ ")")
    | none => .error .InvalidBoolError

/-- The `AmbiguousTag` atom closure, also used verbatim for `Nested` in the
source: an `if`/`else if` chain picks at most one of integer-equality,
boolean-equality or an existence test, and a string-equality fragment
against the raw atom is pushed unconditionally; the alternatives are
`" || "`-joined and parenthesized. -/
def ambiguous_atom (name : String) (x : String) : Except CompassError String :=
  let head : List String :=
    match parseI64 x with
    | some n => [("($." ++ name ++ " == " ++ toString n ++ ")")]
    | none =>
        match parseBool x with
        | some b => [("($." ++ name ++ " == " ++ toString b ++ ")")]
        | none =>
            if x = "exists" then [("(exists($." ++ name ++ "))")]
            else if x = "notexists" then [("(!exists($." ++ name ++ "))")]
            else []
  .ok ("(" ++ join_sep " || " (head ++ [("($." ++ name ++ " == \"" ++ x ++ "\")")]) ++ ")")

/-- The `NumericTag` atom closure: existence keywords, else alias lookup,
else integer parse, emitting a numeric/string dual-equality disjunction. -/
def numeric_tag_atom (name : String) (aliases : List (String × Int)) (x : String) :
    Except CompassError String :=
  if x = "exists" then .ok ("(exists($." ++ name ++ "))")
  else if x = "notexists" then .ok ("(!exists($." ++ name ++ "))")
  else
    match List.lookup (to_uppercase x) aliases with
    | some n =>
        .ok ("(($." ++ name ++ " == " ++ toString n ++ ") || ($." ++ name ++ " == \"" ++
            toString n ++ "\"))")
    | none =>
        match parseI64 x with
        | some n =>
            .ok ("(($." ++ name ++ " == " ++ toString n ++ ") || ($." ++ name ++ " == \"" ++
                toString n ++ "\"))")
        | none => .error .InvalidNumberError

/-- The `StringTag` atom closure: plain string equality against the raw atom. -/
def string_tag_atom (name : String) (x : String) : Except CompassError String :=
  .ok ("($." ++ name ++ " == \"" ++ x ++ "\")")

/-- The flat SQL fragment pushed by the `Fulltext` arm, with `parameter` the
`other_filters.len() + bind_index` placeholder index. -/
def fulltext_fragment (lang tsfn key : String) (parameter : Nat) : String :=
  "to_tsvector('" ++ lang ++ "',object->>'" ++ key ++ "') @@ " ++ tsfn ++
    "('" ++ lang ++ "',$" ++ toString parameter ++ ")"

/-- Function `generate_one_field` from `db.rs`.  The three `&mut Vec` buffers
(`jsonb_filters`, `other_filters`, `other_bindings`) are passed as explicit
state and the updated triple is returned; every arm only appends.  In the
`Not` arm the source runs the inner generator on three fresh scratch
vectors (it passes the scratch binding vector in the filter position and
vice versa, which is unobservable: both start empty and only the scratch
jsonb vector is read back) and merges only the negated jsonb fragments. -/
def generate_one_field (v : String) (name : String) :
    FieldQuery → List String → List String → List String → Nat →
    Except CompassError (List String × List String × List String)
  | .Range _ _ aliases, jF, oF, oB, _ => do
      let filters ← parse_query_list (range_atom name aliases) v
      .ok (jF ++ [filters], oF, oB)
  | .Min, jF, oF, oB, _ => do
      let filters ← parse_query_list (min_atom name) v
      .ok (jF ++ [filters], oF, oB)
  | .Max, jF, oF, oB, _ => do
      let filters ← parse_query_list (max_atom name) v
      .ok (jF ++ [filters], oF, oB)
  | .Bool, jF, oF, oB, _ => do
      let filters ← parse_query_list (bool_atom name) v
      .ok (jF ++ [filters], oF, oB)
  | .AmbiguousTag, jF, oF, oB, _ => do
      let filters ← parse_query_list (ambiguous_atom name) v
      .ok (jF ++ [filters], oF, oB)
  | .NumericTag aliases, jF, oF, oB, _ => do
      let filters ← parse_query_list (numeric_tag_atom name aliases) v
      .ok (jF ++ [filters], oF, oB)
  | .StringTag, jF, oF, oB, _ => do
      let filters ← parse_query_list (string_tag_atom name) v
      .ok (jF ++ [filters], oF, oB)
  | .Nested, jF, oF, oB, _ => do
      let filters ← parse_query_list (ambiguous_atom name) v
      .ok (jF ++ [filters], oF, oB)
  | .Fulltext lang tsfn target, jF, oF, oB, bind_index =>
      .ok (jF, oF ++ [fulltext_fragment lang tsfn (target.getD name) (oF.length + bind_index)],
        oB ++ [v])
  | .Not inner, jF, oF, oB, bind_index => do
      let scratch ← generate_one_field v name inner [] [] [] bind_index
      .ok (jF ++ scratch.1.map (fun s => "!(" ++ s ++ ")"), oF, oB)

/-- The `find_nested` closure of `generate_where`: scan the declared fields
in order; a `Range` field whose configured min/max alias equals the key
resolves to the canonical name with kind `Min`/`Max`; a `Nested` field whose
canonical name equals the key's prefix up to the first `'.'` resolves to the
full original key with kind `Nested`. -/
def find_nested (schema : Schema) (k : String) : Option (String × FieldQuery) :=
  schema.fields.findSome? fun f =>
    match f.2.query with
    | .Range mn mx _ =>
        if k = mn then some (f.1, .Min)
        else if k = mx then some (f.1, .Max)
        else none
    | .Nested => if String.mk (k.data.takeWhile (fun c => c ≠ '.')) = f.1 then some (k, .Nested) else none
    | _ => none

/-- The per-key field resolution of `generate_where`: exact schema lookup
first (returning the key itself as name); else, if the key ends in `'!'`,
look the stripped key up (note the source keeps the original key — with the
`'!'` — as the name on this branch) or fall back to `find_nested` on the
stripped key, wrapping the kind in `Not` either way; else `find_nested`
on the key itself. -/
def resolve_field (schema : Schema) (k : String) : Option (String × FieldQuery) :=
  match List.lookup k schema.fields with
  | some field => some (k, field.query)
  | none =>
      match strip_suffix_char k '!' with
      | some f =>
          Option.or
            (match List.lookup f schema.fields with
             | some field => some (k, .Not field.query)
             | none => none)
            ((find_nested schema f).map fun ab => (ab.1, .Not ab.2))
      | none => find_nested schema k

/-- The sort-direction computation of `generate_where` on the reserved key
`sortorder`. -/
def sort_order_of (fields : List (String × String)) : String :=
  match List.lookup "sortorder" fields with
  | some l =>
      let ord := to_uppercase l
      if ord = "ASC" ∨ ord = "DESC" then ord else "ASC"
  | none => "DESC"

/-- Function `generate_where` from `db.rs`: resolve every filter key (the `HashMap`
iteration is modelled as iteration over an association list), run each
resolved field's generator accumulating the three buffers, then build the
filter clause, the ORDER BY/LIMIT/OFFSET clause and the `&&`-joined
document-path expression, returning also the flat bindings.  The
accumulation loop is factored out as `gw_fold`: resolve each filter key and
run the resolved generator over the three buffers (unresolved keys
contribute nothing). -/
def gw_fold (schema : Schema) (fields : List (String × String)) (bind_index : Nat) :
    Except CompassError (List String × List String × List String) :=
  fields.foldlM
    (fun (st : List String × List String × List String) kv =>
      match resolve_field schema kv.1 with
      | some fq => generate_one_field kv.2 fq.1 fq.2 st.1 st.2.1 st.2.2 bind_index
      | none => .ok st)
    ([], [], [])

def generate_where (schema : Schema) (fields : List (String × String))
    (bind_index : Nat) (force_json_query : Bool) :
    Except CompassError (String × String × String × List String) := do
  let st ← gw_fold schema fields bind_index
  let jsonb_filters := st.1
  let other_filters := st.2.1
  let other_bindings := st.2.2
  let json_query := "(" ++ join_sep " && " jsonb_filters ++ ")"
  let query :=
    if (jsonb_filters ≠ [] ∨ force_json_query = true) ∧ other_filters = [] then
      "WHERE object @@ CAST($1 AS JSONPATH)"
    else if (jsonb_filters ≠ [] ∨ force_json_query = true) ∧ other_filters ≠ [] then
      "WHERE object @@ CAST($1 AS JSONPATH) AND " ++ join_sep " AND " other_filters
    else if other_filters ≠ [] then
      "WHERE " ++ join_sep " AND " other_filters
    else ""
  let order_string :=
    " ORDER BY (object #> ($2)::text[]) " ++ sort_order_of fields ++
      ", doc_id NULLS LAST LIMIT $3 OFFSET $4"
  .ok (query, order_string, json_query, other_bindings)

/-- The `limit` computation of `json_search`: absent → literal `100`;
present → `i64` parse, failure is an invalid-number error. -/
def limit_of (fields : List (String × String)) : Except CompassError Int :=
  match List.lookup "limit" fields with
  | some l =>
      match parseI64 l with
      | some n => .ok n
      | none => .error .InvalidNumberError
  | none => .ok 100

/-- The `offset` computation of `json_search`: absent → literal `0`. -/
def offset_of (fields : List (String × String)) : Except CompassError Int :=
  match List.lookup "offset" fields with
  | some l =>
      match parseI64 l with
      | some n => .ok n
      | none => .error .InvalidNumberError
  | none => .ok 0

/-- A bound SQL parameter as passed to `query_raw`: text or integer. -/
inductive SqlParam where
  | pstr (s : String)
  | pint (n : Int)
deriving DecidableEq, Repr

/-- The parameter assembly of `json_search`: `generate_where` is called with
starting bind index 5, a supplied raw query overrides the generated
document-path text, `sortby` falls back to the schema default, and the bound
parameter list is the document-path text, the sort target, the limit and the
offset, followed by the flat bindings. -/
def json_search_params (schema : Schema) (fields : List (String × String))
    (raw_query : Option String) : Except CompassError (List SqlParam) := do
  let r ← generate_where schema fields 5 raw_query.isSome
  let json_query := raw_query.getD r.2.2.1
  let sort_by := (List.lookup "sortby" fields).getD schema.default_order_by
  let limit ← limit_of fields
  let offset ← offset_of fields
  .ok ([.pstr json_query, .pstr sort_by, .pint limit, .pint offset] ++ r.2.2.2.map .pstr)

/-- JSON values as returned by the store (`serde_json::Value`; `jint` models
a JSON integer of any magnitude — `serde_json` stores it as `i64`, as `u64`
above `i64::MAX`, or as `f64` beyond `u64`). -/
inductive Json where
  | null
  | jbool (b : Bool)
  | jint (n : Int)
  | jstr (s : String)
  | jobj (kvs : List (String × Json))

/-- Rust `Value::as_i64`: `Some` only for the `i64`-representable integers;
a JSON integer above `i64::MAX` (stored as `u64` or `f64`) and any
non-integer value give `None`, which the post-processor's unguarded
`unwrap` turns into a panic. -/
def as_i64 : Json → Option Int
  | .jint n =>
      if -9223372036854775808 ≤ n ∧ n ≤ 9223372036854775807 then some n else none
  | _ => none

/-- Rust `Value::get` on the returned document (non-objects have no fields). -/
def getField (v : Json) (k : String) : Option Json :=
  match v with
  | .jobj kvs => List.lookup k kvs
  | _ => none

/-- Replace the value of the first binding of `k`, keeping the rest. -/
def setKv : List (String × Json) → String → Json → List (String × Json)
  | [], _, _ => []
  | kv :: rest, k, x => if kv.1 = k then (kv.1, x) :: rest else kv :: setKv rest k x

/-- The in-place write `*field = …` through `Value::get_mut`. -/
def setField (v : Json) (k : String) (x : Json) : Json :=
  match v with
  | .jobj kvs => .jobj (setKv kvs k x)
  | _ => v

/-- Zero-padded decimal of width 2. -/
def pad2 (n : Nat) : String :=
  if n < 10 then "0" ++ toString n else toString n

/-- Zero-padded decimal of width 3. -/
def pad3 (n : Nat) : String :=
  if n < 10 then "00" ++ toString n else if n < 100 then "0" ++ toString n else toString n

/-- Zero-padded decimal of width 4. -/
def pad4 (n : Nat) : String :=
  if n < 10 then "000" ++ toString n
  else if n < 100 then "00" ++ toString n
  else if n < 1000 then "0" ++ toString n
  else toString n

/-- Proleptic-Gregorian civil date from days since 1970-01-01 (the standard
era/day-of-era algorithm, as implemented by `chrono`'s calendar). -/
def civil_from_days (z0 : Int) : Int × Nat × Nat :=
  let z : Int := z0 + 719468
  let era : Int := Int.ediv z 146097
  let doe : Nat := (z - era * 146097).toNat
  let yoe : Nat := (doe - doe / 1460 + doe / 36524 - doe / 146096) / 365
  let doy : Nat := doe - (365 * yoe + yoe / 4 - yoe / 100)
  let mp : Nat := (5 * doy + 2) / 153
  let d : Nat := doy - (153 * mp + 2) / 5 + 1
  let m : Nat := if mp < 10 then mp + 3 else mp - 9
  (era * 400 + (yoe : Int) + (if m ≤ 2 then 1 else 0), m, d)

/-- The `chrono` rendering `DateTime<Utc>::to_rfc3339_opts(SecondsFormat::Millis, true)`
for an instant given as epoch seconds plus a millisecond part:
`YYYY-MM-DDTHH:MM:SS.mmmZ`. -/
def rfc3339_millis (secs : Int) (millis : Nat) : String :=
  let days := Int.ediv secs 86400
  let sod := (secs - days * 86400).toNat
  let ymd := civil_from_days days
  (if ymd.1 < 0 then "-" ++ pad4 (-ymd.1).toNat else pad4 ymd.1.toNat) ++ "-" ++
    pad2 ymd.2.1 ++ "-" ++ pad2 ymd.2.2 ++ "T" ++
    pad2 (sod / 3600) ++ ":" ++ pad2 (sod % 3600 / 60) ++ ":" ++ pad2 (sod % 60) ++ "." ++
    pad3 millis ++ "Z"

/-- Whether epoch seconds are representable as a `chrono` `NaiveDateTime`:
the civil year must lie in `chrono`'s range `i32::MIN >> 13 = -262144` to
`i32::MAX >> 13 = 262143` (`NaiveDate::from_num_days_from_ce_opt` returns
`None` outside it; the time-of-day part is always valid here). -/
def chrono_secs_in_range (secs : Int) : Prop :=
  -262144 ≤ (civil_from_days (Int.ediv secs 86400)).1 ∧
    (civil_from_days (Int.ediv secs 86400)).1 ≤ 262143

instance (secs : Int) : Decidable (chrono_secs_in_range secs) := by
  unfold chrono_secs_in_range
  infer_instance

/-- Rust `NaiveDateTime::from_timestamp(t, 0)` rendered via
`to_rfc3339_opts`; `from_timestamp` panics — modelled as `none` — for
seconds outside `chrono`'s representable range. -/
def timestamp_to_rfc3339 (t : Int) : Option String :=
  if chrono_secs_in_range t then some (rfc3339_millis t 0) else none

/-- Rust `Utc.timestamp_millis(ms)` rendered via `to_rfc3339_opts`;
`timestamp_millis` floor-divides into seconds and a nonnegative millisecond
part and panics — modelled as `none` — when the seconds fall outside
`chrono`'s representable range. -/
def timestamp_millis_to_rfc3339 (ms : Int) : Option String :=
  if chrono_secs_in_range (Int.ediv ms 1000) then
    some (rfc3339_millis (Int.ediv ms 1000) (Int.emod ms 1000).toNat)
  else none

/-- One converter application of the result post-processor in `json_search`
/ `get_by_ids`: when the field is present, the `(from, to)` pair
`(DateTimeString, Timestamp)` (resp. `TimestampMillis`) reads the value with
the unguarded `as_i64().unwrap()` — modelled as `none` on `as_i64 = None`,
i.e. a panic — then rewrites it to the RFC3339 string, which itself panics
(`none`) for instants outside `chrono`'s range; every other pair, and an
absent field, leaves the document unchanged. -/
def convert_step (v : Json) (k : String) (conv : ConverterSchema) : Option Json :=
  match getField v k with
  | some fieldVal =>
      match conv.cfrom, conv.cto with
      | .DateTimeString, .Timestamp =>
          match as_i64 fieldVal with
          | some t =>
              match timestamp_to_rfc3339 t with
              | some s => some (setField v k (.jstr s))
              | none => none
          | none => none
      | .DateTimeString, .TimestampMillis =>
          match as_i64 fieldVal with
          | some ms =>
              match timestamp_millis_to_rfc3339 ms with
              | some s => some (setField v k (.jstr s))
              | none => none
          | none => none
      | _, _ => some v
  | none => some v

/-- The result post-processor: fold every declared `(field, converter)` pair
over the returned document (`none` models a panic of the unguarded
`unwrap`). -/
def post_process (converters : List (String × ConverterSchema)) (v : Json) : Option Json :=
  converters.foldlM (fun v kc => convert_step v kc.1 kc.2) v

/-- Spec-level description of the atom combinator (follows the spec's words,
for comparison with `pql_go`): walking the chunks left to right, each
`and_`/`or_` separator ends the pending atom (trailing `'_'` stripped) and
records the corresponding operator, and a nonempty trailing atom is kept;
returns the atoms and the operators in encounter order. -/
def spec_atoms : List String → String → List String × List String
  | [], curr => (if curr = "" then [] else [curr], [])
  | val :: rest, curr =>
      if val = "and_" then
        let p := spec_atoms rest ""
        (strip_us curr :: p.1, "&&" :: p.2)
      else if val = "or_" then
        let p := spec_atoms rest ""
        (strip_us curr :: p.1, "||" :: p.2)
      else spec_atoms rest (curr ++ val)

/-- Translate the atoms left to right, aborting at the first error. -/
def map_except (f : String → Except CompassError String) :
    List String → Except CompassError (List String)
  | [] => .ok []
  | a :: rest => do
      let t ← f a
      let ts ← map_except f rest
      .ok (t :: ts)

/-- Interleave translated atoms with their following operators, in order;
a dangling trailing operator (empty trailing atom) stays at the end. -/
def weave : List String → List String → List String
  | [], _ => []
  | a :: rest, [] => a :: rest
  | a :: rest, o :: os => a :: o :: weave rest os

/-- Concatenation of a chunk list. -/
def str_concat : List String → String
  | [] => ""
  | s :: rest => s ++ str_concat rest

theorem mk_append (a b : List Char) : String.mk a ++ String.mk b = String.mk (a ++ b) :=
  rfl

theorem mk_data (s : String) : String.mk s.data = s := by
  cases s
  rfl

theorem empty_append (s : String) : "" ++ s = s := by
  cases s
  rfl

theorem append_empty (s : String) : s ++ "" = s := by
  cases s
  show String.mk _ = _
  simp

theorem string_append_assoc (a b c : String) : a ++ b ++ c = a ++ (b ++ c) := by
  cases a
  cases b
  cases c
  simp [mk_append]

theorem mk_ne_empty {a : List Char} (h : a ≠ []) : String.mk a ≠ "" := by
  intro hc
  apply h
  have : (String.mk a).data = ("" : String).data := by rw [hc]
  simpa using this

theorem append_mk_ne_empty (s : String) {a : List Char} (h : a ≠ []) :
    s ++ String.mk a ≠ "" := by
  cases s with
  | mk d =>
    rw [mk_append]
    exact mk_ne_empty (by simp [h])

/-- The `parse_query_list` loop computes: translate the atoms in encounter
order (first error aborts) and interleave the fragments with the operators
after the already-accumulated list. -/
theorem pql_go_spec (f : String → Except CompassError String) (l : List String) :
    ∀ (curr : String) (filters : List String),
    pql_go f l curr filters =
      match map_except f (spec_atoms l curr).1 with
      | .error e => .error e
      | .ok ts => .ok (filters ++ weave ts (spec_atoms l curr).2) := by
  induction l with
  | nil =>
    intro curr filters
    by_cases h : curr = ""
    · simp [pql_go, spec_atoms, h, map_except, weave]
    · simp only [pql_go, spec_atoms, h, if_neg, if_false]
      cases hf : f curr <;> simp [map_except, hf, weave, Bind.bind, Except.bind]
  | cons val rest ih =>
    intro curr filters
    by_cases h1 : val = "and_"
    · subst h1
      cases hf : f (strip_us curr) with
      | error e =>
          simp [pql_go, spec_atoms, hf, map_except, Bind.bind, Except.bind]
      | ok t =>
          cases hm : map_except f (spec_atoms rest "").1 with
          | error e =>
              simp [pql_go, spec_atoms, hf, hm, ih, map_except, Bind.bind, Except.bind]
          | ok ts =>
              simp [pql_go, spec_atoms, hf, hm, ih, map_except, Bind.bind, Except.bind,
                weave, List.append_assoc]
    · by_cases h2 : val = "or_"
      · subst h2
        cases hf : f (strip_us curr) with
        | error e =>
            simp [pql_go, spec_atoms, hf, map_except, Bind.bind, Except.bind]
        | ok t =>
            cases hm : map_except f (spec_atoms rest "").1 with
            | error e =>
                simp [pql_go, spec_atoms, hf, hm, ih, map_except, Bind.bind, Except.bind, h1]
            | ok ts =>
                simp [pql_go, spec_atoms, hf, hm, ih, map_except, Bind.bind, Except.bind,
                  weave, List.append_assoc, h1]
      · simp only [pql_go, spec_atoms, if_neg h1, if_neg h2]
        exact ih (curr ++ val) filters

theorem mk_nil : String.mk [] = "" := rfl

/-- Chunking with `split_inclusive('_')` loses no characters. -/
theorem split_concat : ∀ (cs acc : List Char),
    str_concat (split_inclusive_us cs acc) = String.mk (acc ++ cs) := by
  intro cs
  induction cs with
  | nil =>
    intro acc
    by_cases h : acc = [] <;>
      simp [split_inclusive_us, str_concat, h, mk_nil, append_empty]
  | cons c rest ih =>
    intro acc
    by_cases h : c = '_'
    · subst h
      simp only [split_inclusive_us, if_pos rfl, str_concat, ih, mk_append]
      simp
    · simp only [split_inclusive_us, if_neg h, ih]
      simp

/-- When no chunk is a separator, the spec-level atom decomposition is a
single atom: the pending text followed by all remaining characters (and no
operators). -/
theorem spec_atoms_nosep : ∀ (cs acc : List Char) (curr : String),
    (∀ c ∈ split_inclusive_us cs acc, c ≠ "and_" ∧ c ≠ "or_") →
    spec_atoms (split_inclusive_us cs acc) curr =
      (if curr = "" ∧ acc = [] ∧ cs = [] then [] else [curr ++ String.mk (acc ++ cs)], []) := by
  intro cs
  induction cs with
  | nil =>
    intro acc curr H
    by_cases hacc : acc = []
    · subst hacc
      by_cases hc : curr = "" <;>
        simp [split_inclusive_us, spec_atoms, hc, mk_nil, append_empty]
    · have hne := H (String.mk acc) (by simp [split_inclusive_us, hacc])
      have happ : curr ++ String.mk acc ≠ "" := append_mk_ne_empty curr hacc
      simp [split_inclusive_us, spec_atoms, hacc, hne.1, hne.2, happ, append_empty]
  | cons c rest ih =>
    intro acc curr H
    by_cases h : c = '_'
    · subst h
      have hne := H (String.mk (acc ++ ['_'])) (by simp [split_inclusive_us])
      have H' : ∀ x ∈ split_inclusive_us rest [], x ≠ "and_" ∧ x ≠ "or_" := by
        intro x hx
        exact H x (by simp [split_inclusive_us, hx])
      have hcur : curr ++ String.mk (acc ++ ['_']) ≠ "" :=
        append_mk_ne_empty curr (by simp)
      simp only [split_inclusive_us, if_pos rfl, spec_atoms, if_neg hne.1, if_neg hne.2]
      rw [ih [] (curr ++ String.mk (acc ++ ['_'])) H']
      simp [hcur, string_append_assoc, mk_append]
    · simp only [split_inclusive_us, if_neg h]
      rw [ih (acc ++ [c]) curr (by
        intro x hx
        exact H x (by simp [split_inclusive_us, if_neg h, hx]))]
      simp

theorem data_ne_nil {q : String} (h : q ≠ "") : q.data ≠ [] := by
  intro hc
  apply h
  rw [← mk_data q, hc, mk_nil]

/-- C4: the atom combinator produces one parenthesized expression combining
the translated atoms with `&&`/`||` in left-to-right encounter order of the
`and_`/`or_` separators (conjunct 1, via the spec-level decomposition
`spec_atoms`/`weave`; the first failing atom aborts); for a value with no
separator chunks the result is the single translated atom wrapped in
parentheses (conjunct 2); for a `Range` field `season` with no aliases,
value `"16_and_18"` compiles to `"(($.season == 16) && ($.season == 18))"`
and value `"exists"` compiles to an existence test (conjuncts 3 and 4). -/
theorem atom_combinator_correct (f : String → Except CompassError String) (q : String) :
    (parse_query_list f q =
      match map_except f (spec_atoms (split_inclusive_us q.data []) "").1 with
      | .error e => .error e
      | .ok ts =>
          .ok ("(" ++ join_sep " "
            (weave ts (spec_atoms (split_inclusive_us q.data []) "").2) ++ ")"))
    ∧ ((∀ c ∈ split_inclusive_us q.data [], c ≠ "and_" ∧ c ≠ "or_") → q ≠ "" →
        parse_query_list f q =
          match f q with
          | .error e => .error e
          | .ok t => .ok ("(" ++ t ++ ")"))
    ∧ generate_one_field "16_and_18" "season" (.Range "season_min" "season_max" []) [] [] [] 5 =
        .ok (["(($.season == 16) && ($.season == 18))"], [], [])
    ∧ generate_one_field "exists" "season" (.Range "season_min" "season_max" []) [] [] [] 5 =
        .ok (["((exists($.season)))"], [], []) := by
  refine ⟨?_, ?_, rfl, rfl⟩
  · rw [parse_query_list, pql_go_spec]
    cases map_except f (spec_atoms (split_inclusive_us q.data []) "").1 <;>
      simp [Bind.bind, Except.bind]
  · intro hsep hq
    have hatoms := spec_atoms_nosep q.data [] "" hsep
    rw [if_neg (by simp [data_ne_nil hq])] at hatoms
    rw [parse_query_list, pql_go_spec, hatoms]
    simp only [empty_append, mk_data]
    cases hf : f q <;> simp [map_except, hf, weave, join_sep, Bind.bind, Except.bind]

/-- C4 witness: the no-separator conjunct at the concrete value `"comedy"`
for a `StringTag` field `genre`. -/
theorem atom_combinator_correct_witness :
    (∀ c ∈ split_inclusive_us "comedy".data [], c ≠ "and_" ∧ c ≠ "or_") ∧
      ("comedy" : String) ≠ "" ∧
      parse_query_list (string_tag_atom "genre") "comedy" =
        .ok "(($.genre == \"comedy\"))" :=
  ⟨by decide, by decide, by
    rw [(atom_combinator_correct (string_tag_atom "genre") "comedy").2.1 (by decide) (by decide)]
    rfl⟩

/-- C1: for every field resolved with kind `Not(inner)`, the generator runs
the inner kind's generator on the same raw value over fresh scratch buffers
(at the same bind index) and, on success, appends to the outer
document-path fragment list exactly the inner document-path fragments each
wrapped in `!(...)`, leaving the outer flat-SQL fragment list and the outer
binding list unchanged (conjunct 1); an inner error propagates
(conjunct 2); in particular `Not(Fulltext)` leaves all three outer buffers
unchanged — no flat fragment and no bound value (conjunct 3). -/
theorem not_generator_frame (v name : String) (inner : FieldQuery)
    (jF oF oB : List String) (bi : Nat) :
    (∀ nj no nb, generate_one_field v name inner [] [] [] bi = .ok (nj, no, nb) →
      generate_one_field v name (.Not inner) jF oF oB bi =
        .ok (jF ++ nj.map (fun s => "!(" ++ s ++ ")"), oF, oB))
    ∧ (∀ e, generate_one_field v name inner [] [] [] bi = .error e →
      generate_one_field v name (.Not inner) jF oF oB bi = .error e)
    ∧ (∀ lang tsfn target,
      generate_one_field v name (.Not (.Fulltext lang tsfn target)) jF oF oB bi =
        .ok (jF, oF, oB)) := by
  refine ⟨?_, ?_, ?_⟩
  · intro nj no nb h
    simp [generate_one_field, h, Bind.bind, Except.bind]
  · intro e h
    simp [generate_one_field, h, Bind.bind, Except.bind]
  · intro lang tsfn target
    simp [generate_one_field, Bind.bind, Except.bind]

/-- C1 witness: `Not(StringTag)` on nonempty outer buffers, plus
`Not(Fulltext)` leaving them untouched. -/
theorem not_generator_frame_witness :
    generate_one_field "x" "f" .StringTag [] [] [] 7 = .ok (["(($.f == \"x\"))"], [], []) ∧
      generate_one_field "x" "f" (.Not .StringTag) ["a"] ["b"] ["c"] 7 =
        .ok (["a", "!((($.f == \"x\")))"], ["b"], ["c"]) ∧
      generate_one_field "x" "f" (.Not (.Fulltext "english" "to_tsquery" none))
          ["a"] ["b"] ["c"] 7 = .ok (["a"], ["b"], ["c"]) :=
  ⟨rfl,
    (not_generator_frame "x" "f" .StringTag ["a"] ["b"] ["c"] 7).1
      ["(($.f == \"x\"))"] [] [] rfl,
    (not_generator_frame "x" "f" (.Fulltext "english" "to_tsquery" none)
      ["a"] ["b"] ["c"] 7).2.2 "english" "to_tsquery" none⟩

/-- C2 (the code lacks the escaping the claim requires): a `StringTag` atom
containing a quote, and one containing a backslash, are interpolated into
the string-equality fragment verbatim — the emitted fragment contains the
raw `"` / `\` unescaped; the `AmbiguousTag` string-equality alternative
interpolates the same raw atom. -/
theorem string_atom_unescaped :
    generate_one_field "com\"edy" "genre" .StringTag [] [] [] 5 =
      .ok (["(($.genre == \"com\"edy\"))"], [], [])
    ∧ generate_one_field "com\\edy" "genre" .StringTag [] [] [] 5 =
      .ok (["(($.genre == \"com\\edy\"))"], [], [])
    ∧ generate_one_field "com\"edy" "tag" .AmbiguousTag [] [] [] 5 =
      .ok (["((($.tag == \"com\"edy\")))"], [], []) :=
  ⟨rfl, rfl, rfl⟩

/-- C3 (the code keeps the negation marker in the path): for a schema
declaring a `StringTag` field `genre`, the key `genre!` resolves through the
negation branch but the source returns the original key — marker included —
as the field name, so the compiled fragment negates a string-equality on
the path `$.genre!`, not `$.genre`. -/
theorem negation_marker_kept_in_path :
    resolve_field
        { table := "t",
          fields := [("genre", { query := .StringTag, converter := none })],
          default_order_by := "d" } "genre!" =
      some ("genre!", .Not .StringTag)
    ∧ generate_one_field "comedy" "genre!" (.Not .StringTag) [] [] [] 5 =
      .ok (["!((($.genre! == \"comedy\")))"], [], [])
    ∧ generate_where
        { table := "t",
          fields := [("genre", { query := .StringTag, converter := none })],
          default_order_by := "d" } [("genre!", "comedy")] 5 false =
      .ok ("WHERE object @@ CAST($1 AS JSONPATH)",
        " ORDER BY (object #> ($2)::text[]) DESC, doc_id NULLS LAST LIMIT $3 OFFSET $4",
        "(!((($.genre! == \"comedy\"))))", []) :=
  ⟨rfl, rfl, rfl⟩

/-- C5 counterexample: the `Fulltext` phrase can occur as a substring of the
emitted flat fragment — take the phrase equal to the configured language. -/
theorem fulltext_phrase_substring_of_query :
    generate_one_field "english" "description"
        (.Fulltext "english" "websearch_to_tsquery" none) [] [] [] 5 =
      .ok ([],
        ["to_tsvector('english',object->>'description') @@ websearch_to_tsquery('english',$5)"],
        ["english"])
    ∧ List.IsInfix "english".data
        "to_tsvector('english',object->>'description') @@ websearch_to_tsquery('english',$5)".data :=
  ⟨rfl, by decide⟩

/-- C5 amended: for every `Fulltext` field the whole raw value is one search
phrase (no atom splitting): exactly one flat SQL fragment is appended and
the raw value is appended once to the bound-value list, the document-path
buffer is untouched, and the fragment text is a function of the
configuration alone — the phrase is never interpolated into it (it may
still coincide with configuration text, as the counterexample shows). -/
theorem fulltext_one_fragment_one_binding (v name lang tsfn : String)
    (target : Option String) (jF oF oB : List String) (bi : Nat) :
    generate_one_field v name (.Fulltext lang tsfn target) jF oF oB bi =
      .ok (jF, oF ++ [fulltext_fragment lang tsfn (target.getD name) (oF.length + bi)],
        oB ++ [v]) :=
  rfl

/-- C6: for a `Range` field `year` with min-alias `year_min` and max-alias
`year_max`, the key `year_min` resolves to kind `Min` on the canonical
field `year` (conjunct 1); value `"2000"` then compiles to the strict
fragment `(($.year > 2000))` (conjunct 2); `Min`/`Max` atoms support no
existence keywords: every atom that fails the integer parse — `"exists"`
in particular (conjunct 4) — is an invalid-number error (conjunct 3). -/
theorem min_alias_resolution (name x : String) :
    resolve_field
        { table := "t",
          fields := [("year",
            { query := .Range "year_min" "year_max" [], converter := none })],
          default_order_by := "d" } "year_min" =
      some ("year", .Min)
    ∧ generate_one_field "2000" "year" .Min [] [] [] 5 =
      .ok (["(($.year > 2000))"], [], [])
    ∧ (parseI64 x = none →
        min_atom name x = .error .InvalidNumberError ∧
        max_atom name x = .error .InvalidNumberError)
    ∧ parseI64 "exists" = none := by
  refine ⟨rfl, rfl, ?_, by decide⟩
  intro h
  constructor <;> simp [min_atom, max_atom, h]

/-- C6 witness: the `"exists"` atom under `Min` and `Max` on field `year`. -/
theorem min_alias_resolution_witness :
    parseI64 "exists" = none ∧
      min_atom "year" "exists" = .error .InvalidNumberError ∧
      max_atom "year" "exists" = .error .InvalidNumberError :=
  ⟨by decide,
    ((min_alias_resolution "year" "exists").2.2.1 (by decide)).1,
    ((min_alias_resolution "year" "exists").2.2.1 (by decide)).2⟩

/-- C7: the sort direction is taken from the reserved key `sortorder`
case-insensitively — a present value whose uppercasing is `ASC` or `DESC`
is used (in that uppercased form), any other present value yields `ASC`,
and an absent key yields `DESC` (conjuncts 1 and 2); the direction is what
`generate_where` splices into the emitted ORDER BY clause (conjunct 3). -/
theorem sort_order_correct (fields : List (String × String)) :
    (∀ l, List.lookup "sortorder" fields = some l →
      ((to_uppercase l = "ASC" ∨ to_uppercase l = "DESC") → sort_order_of fields = to_uppercase l)
      ∧ (¬(to_uppercase l = "ASC" ∨ to_uppercase l = "DESC") → sort_order_of fields = "ASC"))
    ∧ (List.lookup "sortorder" fields = none → sort_order_of fields = "DESC")
    ∧ (∀ schema bi force r, generate_where schema fields bi force = .ok r →
      r.2.1 = " ORDER BY (object #> ($2)::text[]) " ++ sort_order_of fields ++
        ", doc_id NULLS LAST LIMIT $3 OFFSET $4") := by
  refine ⟨?_, ?_, ?_⟩
  · intro l hl
    constructor <;> intro hc <;> simp [sort_order_of, hl, hc]
  · intro h
    simp [sort_order_of, h]
  · intro schema bi force r h
    unfold generate_where at h
    cases hst : gw_fold schema fields bi with
    | error e =>
        rw [hst] at h
        simp [Bind.bind, Except.bind] at h
    | ok st =>
        rw [hst] at h
        simp only [Bind.bind, Except.bind, Except.ok.injEq] at h
        rw [← h]

/-- C7 witness: a lowercase `asc` is uppercased, an absent key defaults to
`DESC`, and the ORDER BY clause of a concrete `generate_where` run embeds
the computed direction. -/
theorem sort_order_correct_witness :
    List.lookup "sortorder" [("sortorder", "asc")] = some "asc" ∧
      (to_uppercase "asc" = "ASC" ∨ to_uppercase "asc" = "DESC") ∧
      sort_order_of [("sortorder", "asc")] = "ASC" ∧
      List.lookup "sortorder" ([] : List (String × String)) = none ∧
      sort_order_of [] = "DESC" ∧
      generate_where ⟨"t", [], "d"⟩ [("sortorder", "asc")] 2 false =
        .ok ("", " ORDER BY (object #> ($2)::text[]) ASC, doc_id NULLS LAST LIMIT $3 OFFSET $4",
          "()", []) ∧
      (" ORDER BY (object #> ($2)::text[]) ASC, doc_id NULLS LAST LIMIT $3 OFFSET $4" : String) =
        " ORDER BY (object #> ($2)::text[]) " ++ sort_order_of [("sortorder", "asc")] ++
          ", doc_id NULLS LAST LIMIT $3 OFFSET $4" :=
  ⟨rfl, by decide,
    ((sort_order_correct [("sortorder", "asc")]).1 "asc" rfl).1 (by decide),
    rfl,
    (sort_order_correct []).2.1 rfl,
    rfl,
    (sort_order_correct [("sortorder", "asc")]).2.2 ⟨"t", [], "d"⟩ 2 false _ rfl⟩

/-- C8: an absent `limit` key yields `.ok 100` and an absent `offset` key
yields `.ok 0` — no error (conjuncts 1 and 2); a present value that fails
the integer parse is an invalid-number error (conjuncts 3 and 4); and on a
successful search the computed limit and offset are bound at the third and
fourth parameter positions (conjunct 5). -/
theorem limit_offset_defaults (schema : Schema) (fields : List (String × String))
    (raw_query : Option String) :
    (List.lookup "limit" fields = none → limit_of fields = .ok 100)
    ∧ (List.lookup "offset" fields = none → offset_of fields = .ok 0)
    ∧ (∀ l, List.lookup "limit" fields = some l → parseI64 l = none →
      limit_of fields = .error .InvalidNumberError)
    ∧ (∀ l, List.lookup "offset" fields = some l → parseI64 l = none →
      offset_of fields = .error .InvalidNumberError)
    ∧ (∀ ps lim off, json_search_params schema fields raw_query = .ok ps →
      limit_of fields = .ok lim → offset_of fields = .ok off →
      ∃ jq sb rest, ps = [.pstr jq, .pstr sb, .pint lim, .pint off] ++ rest) := by
  refine ⟨?_, ?_, ?_, ?_, ?_⟩
  · intro h
    simp [limit_of, h]
  · intro h
    simp [offset_of, h]
  · intro l hl hp
    simp [limit_of, hl, hp]
  · intro l hl hp
    simp [offset_of, hl, hp]
  · intro ps lim off h hlim hoff
    unfold json_search_params at h
    cases hg : generate_where schema fields 5 raw_query.isSome with
    | error e =>
        rw [hg] at h
        simp [Bind.bind, Except.bind] at h
    | ok r =>
        rw [hg, hlim, hoff] at h
        simp only [Bind.bind, Except.bind, Except.ok.injEq] at h
        exact ⟨raw_query.getD r.2.2.1, (List.lookup "sortby" fields).getD schema.default_order_by,
          r.2.2.2.map .pstr, h.symm⟩

/-- C8 witness: the empty filter map binds `100` and `0` with no error, and
a present non-numeric `limit` fails. -/
theorem limit_offset_defaults_witness :
    List.lookup "limit" ([] : List (String × String)) = none ∧
      limit_of [] = .ok 100 ∧ offset_of [] = .ok 0 ∧
      parseI64 "ten" = none ∧
      limit_of [("limit", "ten")] = .error .InvalidNumberError ∧
      json_search_params ⟨"t", [], "d"⟩ [] none =
        .ok [.pstr "()", .pstr "d", .pint 100, .pint 0] ∧
      (∃ jq sb rest,
        ([.pstr "()", .pstr "d", .pint 100, .pint 0] : List SqlParam) =
          [.pstr jq, .pstr sb, .pint 100, .pint 0] ++ rest) :=
  ⟨rfl,
    (limit_offset_defaults ⟨"t", [], "d"⟩ [] none).1 rfl,
    (limit_offset_defaults ⟨"t", [], "d"⟩ [] none).2.1 rfl,
    by decide,
    (limit_offset_defaults ⟨"t", [], "d"⟩ [("limit", "ten")] none).2.2.1 "ten" rfl (by decide),
    rfl,
    (limit_offset_defaults ⟨"t", [], "d"⟩ [] none).2.2.2.2
      [.pstr "()", .pstr "d", .pint 100, .pint 0] 100 0 rfl rfl rfl⟩

/-- The converter pairs given a rewrite rule by the post-processor's match:
`(DateTimeString, Timestamp)` and `(DateTimeString, TimestampMillis)`; all
other pairs fall into the no-op arm. -/
def defined_rule (c : ConverterSchema) : Prop :=
  c.cfrom = .DateTimeString ∧ (c.cto = .Timestamp ∨ c.cto = .TimestampMillis)

instance (c : ConverterSchema) : Decidable (defined_rule c) := by
  unfold defined_rule
  infer_instance

theorem lookup_setKv_ne (k k' : String) (x : Json) (h : k' ≠ k) :
    ∀ kvs : List (String × Json), List.lookup k (setKv kvs k' x) = List.lookup k kvs := by
  intro kvs
  induction kvs with
  | nil => rfl
  | cons kv rest ih =>
    by_cases hk : kv.1 = k'
    · have hb : (k == k') = false := beq_eq_false_iff_ne.mpr (Ne.symm h)
      simp [setKv, hk, List.lookup, hb]
    · simp [setKv, hk, List.lookup, ih]

theorem getField_setField_ne (v : Json) (k k' : String) (x : Json) (h : k' ≠ k) :
    getField (setField v k' x) k = getField v k := by
  cases v <;> simp [getField, setField]
  exact lookup_setKv_ne k k' x h _

theorem convert_step_absent (v : Json) (k : String) (c : ConverterSchema)
    (h : getField v k = none) : convert_step v k c = some v := by
  simp [convert_step, h]

theorem convert_step_no_rule (v : Json) (k : String) (c : ConverterSchema)
    (h : ¬defined_rule c) : convert_step v k c = some v := by
  obtain ⟨cf, ct⟩ := c
  cases hg : getField v k with
  | none => simp [convert_step, hg]
  | some j => cases cf <;> cases ct <;> simp_all [convert_step, defined_rule, hg]

theorem convert_step_preserves (v w : Json) (k k' : String) (c : ConverterSchema)
    (hs : convert_step v k' c = some w) (h : k' ≠ k) :
    getField w k = getField v k := by
  obtain ⟨cf, ct⟩ := c
  cases hg : getField v k' with
  | none =>
      rw [convert_step_absent v k' ⟨cf, ct⟩ hg] at hs
      cases hs
      rfl
  | some j =>
      cases cf <;> cases ct <;> simp only [convert_step, hg] at hs <;>
        first
          | (cases hs; rfl)
          | (cases has : as_i64 j with
             | none =>
                 simp only [has] at hs
                 exact Option.noConfusion hs
             | some n =>
                 simp only [has] at hs
                 first
                   | (cases hrt : timestamp_to_rfc3339 n with
                      | none =>
                          simp only [hrt] at hs
                          exact Option.noConfusion hs
                      | some s =>
                          simp only [hrt, Option.some.injEq] at hs
                          rw [← hs]
                          exact getField_setField_ne v k k' _ h)
                   | (cases hrt : timestamp_millis_to_rfc3339 n with
                      | none =>
                          simp only [hrt] at hs
                          exact Option.noConfusion hs
                      | some s =>
                          simp only [hrt, Option.some.injEq] at hs
                          rw [← hs]
                          exact getField_setField_ne v k k' _ h))

theorem post_process_nil (v : Json) : post_process [] v = some v := rfl

theorem post_process_cons (kc : String × ConverterSchema)
    (convs : List (String × ConverterSchema)) (v : Json) :
    post_process (kc :: convs) v =
      (convert_step v kc.1 kc.2).bind fun w => post_process convs w := rfl

theorem post_process_field_frame :
    ∀ (convs : List (String × ConverterSchema)) (v v' : Json) (k : String),
      post_process convs v = some v' →
      (∀ c', (k, c') ∈ convs → getField v k = none ∨ ¬defined_rule c') →
      getField v' k = getField v k := by
  intro convs
  induction convs with
  | nil =>
    intro v v' k h _
    rw [post_process_nil] at h
    cases h
    rfl
  | cons kc rest ih =>
    obtain ⟨k₀, c₀⟩ := kc
    intro v v' k h hk
    rw [post_process_cons] at h
    cases hs : convert_step v k₀ c₀ with
    | none =>
        rw [hs] at h
        simp at h
    | some w =>
        rw [hs] at h
        simp only [Option.bind] at h
        have hw : getField w k = getField v k := by
          by_cases hkk : k₀ = k
          · subst hkk
            rcases hk c₀ (List.mem_cons_self _ _) with habs | hnr
            · rw [convert_step_absent v k₀ c₀ habs] at hs
              cases hs
              rfl
            · rw [convert_step_no_rule v k₀ c₀ hnr] at hs
              cases hs
              rfl
          · exact convert_step_preserves v w k k₀ c₀ hs hkk
        rw [← hw]
        exact ih w v' k h fun c' hm => hw ▸ hk c' (List.mem_cons_of_mem _ hm)

theorem post_process_panic :
    ∀ (convs : List (String × ConverterSchema)) (v : Json) (k : String)
      (c : ConverterSchema) (j : Json),
      List.Nodup (convs.map Prod.fst) → (k, c) ∈ convs → defined_rule c →
      getField v k = some j → as_i64 j = none →
      post_process convs v = none := by
  intro convs
  induction convs with
  | nil =>
    intro v k c j _ hm
    cases hm
  | cons kc rest ih =>
    obtain ⟨k₀, c₀⟩ := kc
    intro v k c j hnd hm hr hg ha
    rw [post_process_cons]
    rcases List.mem_cons.1 hm with heq | hm'
    · injection heq with hk hc
      subst hk
      subst hc
      obtain ⟨cf, ct⟩ := c
      unfold defined_rule at hr
      obtain ⟨hcf, hct⟩ := hr
      cases hcf
      rcases hct with hct | hct <;> cases hct <;> simp [convert_step, hg, ha]
    · have hk₀ : k₀ ≠ k := by
        intro hc
        apply (List.nodup_cons.1 hnd).1
        rw [hc]
        exact List.mem_map.mpr ⟨(k, c), hm', rfl⟩
      cases hs : convert_step v k₀ c₀ with
      | none => simp
      | some w =>
          simp only [Option.bind]
          exact ih w k c j (List.nodup_cons.1 hnd).2 hm' hr
            ((convert_step_preserves v w k k₀ c₀ hs hk₀) ▸ hg) ha

theorem post_process_only_integers (convs : List (String × ConverterSchema)) (v : Json)
    (hnd : List.Nodup (convs.map Prod.fst))
    (hsome : (post_process convs v).isSome = true) :
    ∀ kc ∈ convs, defined_rule kc.2 →
      getField v kc.1 = none ∨ ∃ j n, getField v kc.1 = some j ∧ as_i64 j = some n := by
  intro kc hm hr
  cases hg : getField v kc.1 with
  | none => exact Or.inl rfl
  | some j =>
      cases ha : as_i64 j with
      | some n => exact Or.inr ⟨j, n, rfl, ha⟩
      | none =>
          exfalso
          have hmem : (kc.1, kc.2) ∈ convs := by
            rw [Prod.mk.eta]
            exact hm
          rw [post_process_panic convs v kc.1 kc.2 j hnd hmem hr hg ha] at hsome
          simp at hsome

/-- C9: a returned document field `created_at = 1700000000` under converter
`(DateTimeString, Timestamp)` is rewritten to the RFC3339 string
`"2023-11-14T22:13:20.000Z"` — millisecond precision, UTC (conjunct 1); a
field absent from the document is left unmodified (conjunct 2), as is a
field whose converter pair has no defined rule (conjunct 3); and across a
whole post-processing run, any field all of whose converters are
absent-or-ruleless keeps its original value (conjunct 4). -/
theorem timestamp_conversion (convs : List (String × ConverterSchema))
    (v v' : Json) (k : String) (c : ConverterSchema) :
    post_process [("created_at", ⟨.DateTimeString, .Timestamp⟩)]
        (.jobj [("created_at", .jint 1700000000)]) =
      some (.jobj [("created_at", .jstr "2023-11-14T22:13:20.000Z")])
    ∧ (getField v k = none → convert_step v k c = some v)
    ∧ (¬defined_rule c → convert_step v k c = some v)
    ∧ (post_process convs v = some v' →
      (∀ c', (k, c') ∈ convs → getField v k = none ∨ ¬defined_rule c') →
      getField v' k = getField v k) :=
  ⟨rfl, convert_step_absent v k c, convert_step_no_rule v k c,
    fun h hk => post_process_field_frame convs v v' k h hk⟩

/-- C9 witness: a document with the field absent, and a converter pair with
no defined rule, both leave the document unchanged. -/
theorem timestamp_conversion_witness :
    getField (.jobj [("title", .jstr "t")]) "created_at" = none ∧
      convert_step (.jobj [("title", .jstr "t")]) "created_at"
        ⟨.DateTimeString, .Timestamp⟩ = some (.jobj [("title", .jstr "t")]) ∧
      ¬defined_rule ⟨.Timestamp, .DateTimeString⟩ ∧
      convert_step (.jobj [("created_at", .jint 3)]) "created_at"
        ⟨.Timestamp, .DateTimeString⟩ = some (.jobj [("created_at", .jint 3)]) ∧
      post_process [("created_at", ⟨.Timestamp, .DateTimeString⟩)]
        (.jobj [("created_at", .jint 3)]) = some (.jobj [("created_at", .jint 3)]) ∧
      getField (.jobj [("created_at", .jint 3)]) "created_at" = some (.jint 3) :=
  ⟨rfl,
    (timestamp_conversion [] (.jobj [("title", .jstr "t")]) (.jobj [("title", .jstr "t")])
      "created_at" ⟨.DateTimeString, .Timestamp⟩).2.1 rfl,
    by decide,
    (timestamp_conversion [] (.jobj [("created_at", .jint 3)]) (.jobj [("created_at", .jint 3)])
      "created_at" ⟨.Timestamp, .DateTimeString⟩).2.2.1 (by decide),
    rfl,
    rfl⟩

/-- C10: when a declared converter with a defined rule — `(DateTimeString,
Timestamp)` or `(DateTimeString, TimestampMillis)` — meets a present field
value that `as_i64` cannot read as an integer (a non-integer value, or a
JSON integer above `i64::MAX`), the post-processor hits the unguarded
`as_i64().unwrap()` and panics (modelled: returns `none`) instead of
erroring or skipping the field (conjunct 1); consequently the conversion
succeeds only under the precondition that every such present field holds an
`i64`-readable integer (conjunct 2 — a necessary condition; success further
requires the instants to lie in `chrono`'s representable range, since the
renderers panic outside it).  Converter keys are unique (they come from a
map). -/
theorem unwrap_panic_on_non_integer (convs : List (String × ConverterSchema))
    (v : Json) (k : String) (c : ConverterSchema) (j : Json) :
    (List.Nodup (convs.map Prod.fst) → (k, c) ∈ convs → defined_rule c →
      getField v k = some j → as_i64 j = none →
      post_process convs v = none)
    ∧ (List.Nodup (convs.map Prod.fst) →
      (post_process convs v).isSome = true →
      ∀ kc ∈ convs, defined_rule kc.2 →
        getField v kc.1 = none ∨
          ∃ j n, getField v kc.1 = some j ∧ as_i64 j = some n) :=
  ⟨fun hnd hm hr hg ha => post_process_panic convs v k c j hnd hm hr hg ha,
    fun hnd hsome => post_process_only_integers convs v hnd hsome⟩

/-- C10 witness: a string-valued `created_at` under `(DateTimeString,
Timestamp)` panics, and a run that did succeed (an in-range integer) indeed
had an integer-readable field. -/
theorem unwrap_panic_on_non_integer_witness :
    List.Nodup ([("created_at", (⟨.DateTimeString, .Timestamp⟩ : ConverterSchema))].map
        Prod.fst) ∧
      ("created_at", (⟨.DateTimeString, .Timestamp⟩ : ConverterSchema)) ∈
        [("created_at", (⟨.DateTimeString, .Timestamp⟩ : ConverterSchema))] ∧
      defined_rule ⟨.DateTimeString, .Timestamp⟩ ∧
      getField (.jobj [("created_at", .jstr "yesterday")]) "created_at" =
        some (.jstr "yesterday") ∧
      as_i64 (.jstr "yesterday") = none ∧
      post_process [("created_at", ⟨.DateTimeString, .Timestamp⟩)]
        (.jobj [("created_at", .jstr "yesterday")]) = none ∧
      (post_process [("created_at", ⟨.DateTimeString, .Timestamp⟩)]
        (.jobj [("created_at", .jint 1700000000)])).isSome = true ∧
      (getField (.jobj [("created_at", .jint 1700000000)]) "created_at" = none ∨
        ∃ j n, getField (.jobj [("created_at", .jint 1700000000)]) "created_at" = some j ∧
          as_i64 j = some n) :=
  ⟨by decide, by decide, by decide, rfl, rfl,
    (unwrap_panic_on_non_integer [("created_at", ⟨.DateTimeString, .Timestamp⟩)]
      (.jobj [("created_at", .jstr "yesterday")]) "created_at"
      ⟨.DateTimeString, .Timestamp⟩ (.jstr "yesterday")).1
      (by decide) (by decide) (by decide) rfl rfl,
    rfl,
    (unwrap_panic_on_non_integer [("created_at", ⟨.DateTimeString, .Timestamp⟩)]
      (.jobj [("created_at", .jint 1700000000)]) "created_at"
      ⟨.DateTimeString, .Timestamp⟩ .null).2
      (by decide) rfl
      ("created_at", ⟨.DateTimeString, .Timestamp⟩) (by decide) (by decide)⟩

end Compass
